import Mathlib

/-!
Verification development for the Utah Gun Exchange category scraper
(`scrapper.py`).  The script discovers categories, paginates each category
up to a fixed cap, extracts listing records (title, URL, price, views)
from each page's listing blocks, and exports the aggregate, sorted by
category ascending and views descending, to a single spreadsheet.

The embedding below translates the pure logic of the script:

* numeric field parsing (`re.search`/`re.match` on price and stats text,
  comma stripping, `float`/`int` conversion guarded by `try`),
* per-block record extraction and the skip-on-missing-anchor rule,
* pagination with early termination and the `MAX_PAGES_PER_CATEGORY` cap,
* HTTP status handling at both fetch sites (`raise_for_status`, with a
  404 pre-check only at the listing-page site),
* the final aggregate sort and the empty-result early exit.

Network and HTML parsing are external collaborators: fetched pages enter
the model as oracle functions, and a parsed listing block enters as a
`Block` value carrying the text that BeautifulSoup would return
(`get_text` with `strip=True` results are carried already stripped).
Character classes model the ASCII behaviour of Python's `\d` and `\s`.
Python `float` results are represented exactly as rationals.
-/

namespace Scrapper

/-- `MAX_PAGES_PER_CATEGORY = 50` from the script header. -/
def MAX_PAGES_PER_CATEGORY : Nat := 50

/-- Character class of the price regex `[\d,\.]+` (ASCII digits, comma, dot). -/
def isPriceChar (c : Char) : Bool := c.isDigit || c == ',' || c == '.'

/-- Character class of the views regex group `[\d,]+` (ASCII digits, comma). -/
def isDigitComma (c : Char) : Bool := c.isDigit || c == ','

/-- ASCII whitespace matched by the regex `\s`. -/
def isPySpace (c : Char) : Bool :=
  c == ' ' || c == '\t' || c == '\n' || c == '\r' || c == '\x0b' || c == '\x0c'

/-- Value of a list of ASCII digits read in base 10 (as `int`/`float` do). -/
def digitsVal (l : List Char) : Nat :=
  l.foldl (fun a c => a * 10 + (c.toNat - 48)) 0

/-- `re.search` of a one-or-more character-class pattern: the first maximal
run of characters satisfying `p`, or `none` when no character matches. -/
def firstRun (p : Char → Bool) : List Char → Option (List Char)
  | [] => none
  | c :: cs => if p c then some (c :: cs.takeWhile p) else firstRun p cs

/-- Python `float()` on strings drawn from digits and dots (the only
characters the price match can contain once commas are stripped): at most
one dot, at least one digit; the value is returned exactly as a rational. -/
def pyFloat? (cs : List Char) : Option ℚ :=
  if cs.all (fun c => c.isDigit || c == '.') then
    let intPart := cs.takeWhile (fun c => c != '.')
    match cs.dropWhile (fun c => c != '.') with
    | [] => if cs.isEmpty then none else some (digitsVal cs)
    | _ :: frac =>
      if frac.any (fun c => c == '.') then none
      else if intPart.isEmpty && frac.isEmpty then none
      else some ((digitsVal intPart : ℚ) + (digitsVal frac : ℚ) / (10 : ℚ) ^ frac.length)
  else none

/-- Python `int()` on strings drawn from digits (the views group after
comma stripping): fails on the empty string. -/
def pyInt? (cs : List Char) : Option Nat :=
  if cs.isEmpty then none
  else if cs.all Char.isDigit then some (digitsVal cs) else none

/-- Lines 67-77 of `scrapper.py`: the price of a block whose price element
has stripped text `txt` (`none` when the element is missing).  The first
`[\d,\.]+` run is taken, commas are stripped, and `float` is attempted;
every failure yields `none`. -/
def extractPrice (txt : Option String) : Option ℚ :=
  match txt with
  | none => none
  | some t =>
    match firstRun isPriceChar t.data with
    | none => none
    | some run => pyFloat? (run.filter (fun c => c != ','))

/-- Literal matching of a regex pattern fragment: does `pat` occur verbatim
at the start of the input? -/
def litMatch : List Char → List Char → Bool
  | [], _ => true
  | _ :: _, [] => false
  | p :: ps, c :: cs => p == c && litMatch ps cs

/-- The anchored match `re.match(r"([\d,]+)\s+total views", txt)`, returning
group 1.  Each quantifier is maximal-munch; backtracking cannot help here
because no character is both in `[\d,]` and in `\s`, and `\s` cannot match
the leading `t` of the literal. -/
def viewsGroup? (cs : List Char) : Option (List Char) :=
  let g1 := cs.takeWhile isDigitComma
  let r1 := cs.dropWhile isDigitComma
  if g1.isEmpty then none
  else
    let ws := r1.takeWhile isPySpace
    let r2 := r1.dropWhile isPySpace
    if ws.isEmpty then none
    else if litMatch "total views".data r2 then some g1 else none

/-- Lines 79-89 of `scrapper.py`: the view count of a block whose stats
element has stripped text `txt` (`none` when the element is missing). -/
def extractViews (txt : Option String) : Option Nat :=
  match txt with
  | none => none
  | some t =>
    match viewsGroup? t.data with
    | none => none
    | some g => pyInt? (g.filter (fun c => c != ','))

/-- A preview anchor (`a.preview` inside `div.post-left`) as the HTML
parser delivers it: its `href`, its optional `title` attribute, and its
`get_text(strip=True)` text. -/
structure Anchor where
  href : String
  titleAttr : Option String
  textStripped : String
deriving DecidableEq, Repr

/-- One `div.post-block` listing block: the optional preview anchor, and
the stripped text of the optional `p.post-price` and `p.stats` elements. -/
structure Block where
  preview : Option Anchor
  priceTxt : Option String
  statsTxt : Option String
deriving DecidableEq, Repr

/-- A listing record as built on lines 91-97 of `scrapper.py`. -/
structure Record where
  category : String
  title : String
  url : String
  price : Option ℚ
  views : Option Nat
deriving DecidableEq, Repr

/-- Line 65 of `scrapper.py`: `left.get("title") or left.get_text(strip=True)`.
Python's `or` falls through on a falsy value, so an absent or empty `title`
attribute both select the stripped anchor text. -/
def anchorTitle (a : Anchor) : String :=
  match a.titleAttr with
  | some t => if t = "" then a.textStripped else t
  | none => a.textStripped

/-- Lines 59-97 of `scrapper.py`, one loop iteration: the record extracted
from one block, or `none` when the preview anchor is missing (`continue`). -/
def extractRecord (catName : String) (b : Block) : Option Record :=
  match b.preview with
  | none => none
  | some left =>
    some ⟨catName, anchorTitle left, left.href,
      extractPrice b.priceTxt, extractViews b.statsTxt⟩

/-- Lines 57-98 of `scrapper.py`: the listings built from the parsed blocks
of one page (the loop appends exactly the records of blocks that have a
preview anchor, in page order). -/
def extractListings (catName : String) (blocks : List Block) : List Record :=
  blocks.filterMap (extractRecord catName)

/-- `requests`/`cloudscraper` `Response.raise_for_status`: raises exactly
for 4xx and 5xx status codes. -/
def raiseForStatus (status : Nat) : Bool :=
  decide (400 ≤ status) && decide (status < 600)

/-- Lines 52-56 of `scrapper.py` (`fetch_listings_from_page`): a 404 status
returns the empty listing list before `raise_for_status` can run; any other
4xx/5xx status raises (modelled as `Except.error status`); otherwise the
page's blocks are extracted. -/
def fetch_listings_from_page (catName : String) (status : Nat)
    (blocks : List Block) : Except Nat (List Record) :=
  if status = 404 then Except.ok []
  else if raiseForStatus status then Except.error status
  else Except.ok (extractListings catName blocks)

/-- Lines 33-34 of `scrapper.py` (`get_category_links`): the categories
index fetch calls `raise_for_status` with no 404 pre-check, so every
4xx/5xx status — 404 included — raises. -/
def get_category_links_fetch (status : Nat) (body : α) : Except Nat α :=
  if raiseForStatus status then Except.error status else Except.ok body

/-- The per-page result that `fetch_listings_from_page` hands the paginator,
given an oracle `g` for the pages of one category: `g p = none` models a
not-found page 404 (which the function collapses to `[]`), `g p = some rs`
a fetched page whose blocks extract to `rs`. -/
def pageRecs (g : Nat → Option (List α)) (p : Nat) : List α :=
  (g p).getD []

/-- The loop of `fetch_category_listings` (lines 103-111 of `scrapper.py`)
with `fuel` iterations left, about to fetch page `page`: returns the
records accumulated from `page` on together with the number of pages
fetched.  An empty (or not-found) page is still fetched — it counts one
fetch — and breaks the loop. -/
def paginateAux (g : Nat → Option (List α)) : Nat → Nat → List α × Nat
  | 0, _ => ([], 0)
  | fuel + 1, page =>
    let recs := pageRecs g page
    if recs.isEmpty then ([], 1)
    else
      let rest := paginateAux g fuel (page + 1)
      (recs ++ rest.1, rest.2 + 1)

/-- Lines 100-112 of `scrapper.py`: all records of one category, paginating
from page 1 up to `MAX_PAGES_PER_CATEGORY`. -/
def fetch_category_listings (g : Nat → Option (List α)) : List α :=
  (paginateAux g MAX_PAGES_PER_CATEGORY 1).1

/-- The number of pages the `fetch_category_listings` loop fetches. -/
def pagesFetched (g : Nat → Option (List α)) : Nat :=
  (paginateAux g MAX_PAGES_PER_CATEGORY 1).2

/-- Python string comparison (`<` on `str`), as pandas applies it when
sorting an object column: lexicographic on code points. -/
def charListLt : List Char → List Char → Bool
  | [], [] => false
  | [], _ :: _ => true
  | _ :: _, [] => false
  | a :: as, b :: bs => if a = b then charListLt as bs else decide (a < b)

/-- String comparison on the underlying character lists. -/
def strLt (a b : String) : Bool := charListLt a.data b.data

/-- The secondary sort key of `df.sort_values(["Category", "Views"],
ascending=[True, False])` restricted to one category: views descending,
with missing views (`NaN` in the frame, `na_position="last"` by default)
after all present views. -/
def viewsKeyLEb : Option Nat → Option Nat → Bool
  | some m, some n => decide (n ≤ m)
  | some _, none => true
  | none, none => true
  | none, some _ => false

/-- The row ordering of line 132-135 of `scrapper.py`: category ascending
(primary), views descending with missing views last (secondary). -/
def recLEb (a b : Record) : Bool :=
  if a.category = b.category then viewsKeyLEb a.views b.views
  else strLt a.category b.category

/-- The row ordering as a decidable relation. -/
abbrev recLE : Record → Record → Prop := fun a b => recLEb a b = true

/-- Lines 132-135 of `scrapper.py`: the sorted export order (pandas'
multi-key `sort_values` is a stable sort by this comparison). -/
def sortRecords (l : List Record) : List Record :=
  l.insertionSort recLE

/-- Lines 126-143 of `scrapper.py` after aggregation: on an empty
collection, print `No data scraped. Exiting.` and return without writing;
otherwise write the sorted rows to the single output workbook.  The result
pairs the early-exit message with the optional written file
(name, sheet, rows). -/
def mainExport (allData : List Record) :
    Option String × Option (String × String × List Record) :=
  if allData.isEmpty then (some "No data scraped. Exiting.", none)
  else (none, some ("all_categories_listings.xlsx", "Listings", sortRecords allData))

/-- The anchored views pattern in the claim's words: the stats text
begins with a non-empty run of digits and commas containing at least one
digit, followed by non-empty whitespace and the literal `total views`,
with arbitrary text allowed after; `n` is the integer parsed from that
run with the commas stripped. -/
def viewsPattern (t : List Char) (n : Nat) : Prop :=
  ∃ ds ws rest : List Char,
    t = ds ++ ws ++ ("total views".data ++ rest) ∧
    ds ≠ [] ∧ (∀ c ∈ ds, isDigitComma c = true) ∧
    ws ≠ [] ∧ (∀ c ∈ ws, isPySpace c = true) ∧
    ds.filter (fun c => c != ',') ≠ [] ∧
    n = digitsVal (ds.filter (fun c => c != ','))

/-- The export order in the words of the spec: rows sorted by category
ascending lexicographically and, within a category, by views descending
with missing views after present ones.  Stated independently of the
comparison function `recLEb` used by the sort. -/
def specSortLE (a b : Record) : Prop :=
  strLt a.category b.category = true ∨
    (a.category = b.category ∧
      match a.views, b.views with
      | some m, some n => n ≤ m
      | some _, none => True
      | none, none => True
      | none, some _ => False)

/-- The sorting example records of the spec: `{cat:"B",views:5}`,
`{cat:"A",views:10}`, `{cat:"A",views:20}`. -/
def exB5 : Record := ⟨"B", "tb", "ub", none, some 5⟩

/-- Spec sorting example record `{cat:"A",views:10}`. -/
def exA10 : Record := ⟨"A", "ta", "ua", none, some 10⟩

/-- Spec sorting example record `{cat:"A",views:20}`. -/
def exA20 : Record := ⟨"A", "tc", "uc", none, some 20⟩

/-- A listing block whose preview anchor carries an empty `title`
attribute and visible text `Rifle`. -/
def emptyTitleBlock : Block :=
  ⟨some ⟨"https://utahgunexchange.com/ads/1", some "", "Rifle"⟩, none, none⟩

end Scrapper

namespace Scrapper

theorem charListLt_irrefl : ∀ l : List Char, charListLt l l = false
  | [] => rfl
  | a :: as => by simp [charListLt, charListLt_irrefl as]

theorem charListLt_trans : ∀ a b c : List Char, charListLt a b = true →
    charListLt b c = true → charListLt a c = true := by
  intro a
  induction a with
  | nil =>
    intro b c h1 h2
    cases b with
    | nil => exact h2
    | cons y ys =>
      cases c with
      | nil => simp [charListLt] at h2
      | cons z zs => rfl
  | cons x xs ih =>
    intro b c h1 h2
    cases b with
    | nil => simp [charListLt] at h1
    | cons y ys =>
      cases c with
      | nil => simp [charListLt] at h2
      | cons z zs =>
        simp only [charListLt] at h1 h2 ⊢
        by_cases hxy : x = y
        · subst hxy
          rw [if_pos rfl] at h1
          by_cases hxz : x = z
          · subst hxz
            rw [if_pos rfl] at h2 ⊢
            exact ih ys zs h1 h2
          · rw [if_neg hxz] at h2 ⊢
            exact h2
        · rw [if_neg hxy] at h1
          have hlt1 : x < y := of_decide_eq_true h1
          by_cases hyz : y = z
          · subst hyz
            rw [if_neg hxy]
            exact h1
          · rw [if_neg hyz] at h2
            have hlt2 : y < z := of_decide_eq_true h2
            have hxz : x < z := lt_trans hlt1 hlt2
            rw [if_neg (ne_of_lt hxz)]
            exact decide_eq_true hxz

theorem charListLt_total : ∀ a b : List Char,
    a = b ∨ charListLt a b = true ∨ charListLt b a = true := by
  intro a
  induction a with
  | nil =>
    intro b
    cases b with
    | nil => exact Or.inl rfl
    | cons y ys => exact Or.inr (Or.inl rfl)
  | cons x xs ih =>
    intro b
    cases b with
    | nil => exact Or.inr (Or.inr rfl)
    | cons y ys =>
      by_cases hxy : x = y
      · subst hxy
        rcases ih ys with h | h | h
        · exact Or.inl (by rw [h])
        · exact Or.inr (Or.inl (by simp [charListLt, h]))
        · exact Or.inr (Or.inr (by simp [charListLt, h]))
      · rcases lt_or_gt_of_ne hxy with h | h
        · refine Or.inr (Or.inl ?_)
          simp only [charListLt]
          rw [if_neg hxy]
          exact decide_eq_true h
        · refine Or.inr (Or.inr ?_)
          simp only [charListLt]
          rw [if_neg (Ne.symm hxy)]
          exact decide_eq_true h

theorem strLt_irrefl (s : String) : strLt s s = false :=
  charListLt_irrefl s.data

theorem strLt_trans {a b c : String} (h1 : strLt a b = true)
    (h2 : strLt b c = true) : strLt a c = true :=
  charListLt_trans a.data b.data c.data h1 h2

theorem strLt_total {a b : String} (h : a ≠ b) :
    strLt a b = true ∨ strLt b a = true := by
  rcases charListLt_total a.data b.data with he | hlt | hgt
  · exact absurd (by cases a; cases b; exact congrArg String.mk he) h
  · exact Or.inl hlt
  · exact Or.inr hgt

theorem viewsKeyLEb_total : ∀ x y : Option Nat,
    viewsKeyLEb x y = true ∨ viewsKeyLEb y x = true := by
  intro x y
  cases x <;> cases y <;> simp [viewsKeyLEb] <;> omega

theorem viewsKeyLEb_trans : ∀ x y z : Option Nat, viewsKeyLEb x y = true →
    viewsKeyLEb y z = true → viewsKeyLEb x z = true := by
  intro x y z
  cases x <;> cases y <;> cases z <;> simp [viewsKeyLEb] <;> omega

instance : IsTotal Record recLE := by
  constructor
  intro a b
  simp only [recLE, recLEb]
  by_cases h : a.category = b.category
  · rw [if_pos h, if_pos h.symm]
    exact viewsKeyLEb_total a.views b.views
  · rw [if_neg h, if_neg (Ne.symm h)]
    exact strLt_total h

instance : IsTrans Record recLE := by
  constructor
  intro a b c h1 h2
  simp only [recLE, recLEb] at h1 h2 ⊢
  by_cases hab : a.category = b.category
  · rw [if_pos hab] at h1
    by_cases hbc : b.category = c.category
    · rw [if_pos hbc] at h2
      rw [if_pos (hab.trans hbc)]
      exact viewsKeyLEb_trans a.views b.views c.views h1 h2
    · rw [if_neg hbc] at h2
      rw [if_neg (by rw [hab]; exact hbc), hab]
      exact h2
  · rw [if_neg hab] at h1
    by_cases hbc : b.category = c.category
    · rw [if_neg (by rw [← hbc]; exact hab), ← hbc]
      exact h1
    · rw [if_neg hbc] at h2
      have hac : strLt a.category c.category = true := strLt_trans h1 h2
      have hne : a.category ≠ c.category := by
        intro he
        rw [← he] at h2
        have hrefl := strLt_trans h1 h2
        rw [strLt_irrefl] at hrefl
        exact Bool.false_ne_true hrefl
      rw [if_neg hne]
      exact hac

theorem recLE_iff_specSortLE (a b : Record) : recLE a b ↔ specSortLE a b := by
  simp only [recLE, recLEb, specSortLE]
  by_cases h : a.category = b.category
  · rw [if_pos h, h]
    rw [strLt_irrefl]
    simp only [Bool.false_eq_true, false_or]
    cases a.views <;> cases b.views <;> simp [viewsKeyLEb]
  · rw [if_neg h]
    constructor
    · exact fun hl => Or.inl hl
    · rintro (hl | ⟨he, _⟩)
      · exact hl
      · exact absurd he h

theorem takeWhile_append_stop {α : Type} {p : α → Bool} :
    ∀ (l1 : List α) (c : α) (l2 : List α), (∀ x ∈ l1, p x = true) → p c = false →
      (l1 ++ c :: l2).takeWhile p = l1 := by
  intro l1
  induction l1 with
  | nil => intro c l2 _ hc; simp [List.takeWhile_cons, hc]
  | cons x xs ih =>
    intro c l2 h hc
    have hx : p x = true := h x (List.mem_cons_self x xs)
    simp only [List.cons_append, List.takeWhile_cons, hx]
    simp [ih c l2 (fun y hy => h y (List.mem_cons_of_mem x hy)) hc]

theorem dropWhile_append_stop {α : Type} {p : α → Bool} :
    ∀ (l1 : List α) (c : α) (l2 : List α), (∀ x ∈ l1, p x = true) → p c = false →
      (l1 ++ c :: l2).dropWhile p = c :: l2 := by
  intro l1
  induction l1 with
  | nil => intro c l2 _ hc; simp [List.dropWhile_cons, hc]
  | cons x xs ih =>
    intro c l2 h hc
    have hx : p x = true := h x (List.mem_cons_self x xs)
    simp only [List.cons_append, List.dropWhile_cons, hx]
    exact ih c l2 (fun y hy => h y (List.mem_cons_of_mem x hy)) hc

theorem firstRun_cons_neg {p : Char → Bool} {c : Char} {l : List Char}
    (h : p c = false) : firstRun p (c :: l) = firstRun p l := by
  simp [firstRun, h]

theorem firstRun_cons_pos {p : Char → Bool} {c : Char} {l : List Char}
    (h : p c = true) : firstRun p (c :: l) = some (c :: l.takeWhile p) := by
  simp [firstRun, h]

theorem firstRun_none {p : Char → Bool} :
    ∀ l : List Char, (∀ c ∈ l, p c = false) → firstRun p l = none := by
  intro l
  induction l with
  | nil => intro _; rfl
  | cons c cs ih =>
    intro h
    rw [firstRun_cons_neg (h c (List.mem_cons_self c cs))]
    exact ih (fun y hy => h y (List.mem_cons_of_mem c hy))

theorem litMatch_self_append : ∀ l t : List Char, litMatch l (l ++ t) = true := by
  intro l
  induction l with
  | nil => intro t; rfl
  | cons c cs ih => intro t; simp [litMatch, ih t]

theorem litMatch_exists {p : List Char} :
    ∀ {s : List Char}, litMatch p s = true → ∃ r, s = p ++ r := by
  induction p with
  | nil => intro s _; exact ⟨s, rfl⟩
  | cons c cs ih =>
    intro s h
    cases s with
    | nil => simp [litMatch] at h
    | cons x xs =>
      simp only [litMatch, Bool.and_eq_true, beq_iff_eq] at h
      obtain ⟨rfl, h2⟩ := h
      obtain ⟨r, rfl⟩ := ih h2
      exact ⟨r, rfl⟩

theorem isPySpace_not_digitComma {c : Char} (h : isPySpace c = true) :
    isDigitComma c = false := by
  have h6 : c = ' ' ∨ c = '\t' ∨ c = '\n' ∨ c = '\x0d' ∨ c = '\x0b' ∨ c = '\x0c' := by
    simpa [isPySpace, or_assoc] using h
  rcases h6 with rfl | rfl | rfl | rfl | rfl | rfl <;> decide

theorem extractViews_some (t : String) :
    extractViews (some t) =
      match viewsGroup? t.data with
      | none => none
      | some g => pyInt? (g.filter (fun c => c != ',')) := rfl

theorem pyInt_eq (cs : List Char) :
    pyInt? cs =
      if cs.isEmpty then none
      else if cs.all Char.isDigit then some (digitsVal cs) else none := rfl

theorem viewsGroup_eq (cs : List Char) :
    viewsGroup? cs =
      if (cs.takeWhile isDigitComma).isEmpty then none
      else if ((cs.dropWhile isDigitComma).takeWhile isPySpace).isEmpty then none
      else if litMatch "total views".data
          ((cs.dropWhile isDigitComma).dropWhile isPySpace) then
        some (cs.takeWhile isDigitComma)
      else none := rfl

theorem paginateAux_stop {α : Type} (g : Nat → Option (List α)) (f page : Nat)
    (h : pageRecs g page = []) : paginateAux g (f + 1) page = ([], 1) := by
  simp [paginateAux, h]

theorem paginateAux_step {α : Type} (g : Nat → Option (List α)) (f page : Nat)
    (h : pageRecs g page ≠ []) :
    paginateAux g (f + 1) page =
      (pageRecs g page ++ (paginateAux g f (page + 1)).1,
        (paginateAux g f (page + 1)).2 + 1) := by
  simp only [paginateAux]
  rw [if_neg (by simpa [List.isEmpty_iff] using h)]

theorem paginateAux_all_nonempty {α : Type} (g : Nat → Option (List α)) :
    ∀ f s, (∀ i, i < f → pageRecs g (s + i) ≠ []) →
      paginateAux g f s = (((List.range' s f).map (pageRecs g)).flatten, f) := by
  intro f
  induction f with
  | zero => intro s _; rfl
  | succ f ih =>
    intro s h
    have h0 : pageRecs g s ≠ [] := by simpa using h 0 (Nat.succ_pos f)
    have hrest : ∀ i, i < f → pageRecs g (s + 1 + i) ≠ [] := by
      intro i hi
      have := h (i + 1) (by omega)
      rwa [show s + (i + 1) = s + 1 + i by omega] at this
    rw [paginateAux_step g f s h0, ih (s + 1) hrest, List.range'_succ]
    simp

theorem paginateAux_stops_at {α : Type} (g : Nat → Option (List α)) :
    ∀ j f s, j < f → (∀ i, i < j → pageRecs g (s + i) ≠ []) →
      pageRecs g (s + j) = [] →
      paginateAux g f s = (((List.range' s j).map (pageRecs g)).flatten, j + 1) := by
  intro j
  induction j with
  | zero =>
    intro f s hf _ he
    obtain ⟨f2, rfl⟩ : ∃ f2, f = f2 + 1 := ⟨f - 1, by omega⟩
    rw [paginateAux_stop g f2 s (by simpa using he)]
    simp
  | succ j ih =>
    intro f s hf hne he
    obtain ⟨f2, rfl⟩ : ∃ f2, f = f2 + 1 := ⟨f - 1, by omega⟩
    have h0 : pageRecs g s ≠ [] := by simpa using hne 0 (by omega)
    have hrest : ∀ i, i < j → pageRecs g (s + 1 + i) ≠ [] := by
      intro i hi
      have := hne (i + 1) (by omega)
      rwa [show s + (i + 1) = s + 1 + i by omega] at this
    have he2 : pageRecs g (s + 1 + j) = [] := by
      rwa [show s + (j + 1) = s + 1 + j by omega] at he
    rw [paginateAux_step g f2 s h0, ih f2 (s + 1) (by omega) hrest he2,
      List.range'_succ]
    simp

/-- C1: for every aggregate collection of listing records, the exported
rows are a permutation of the collection ordered by category ascending
lexicographically and, within a category, by views descending with records
whose views are missing placed after records with present views; in
particular `[{B,5},{A,10},{A,20}]` is output as `[{A,20},{A,10},{B,5}]`. -/
theorem export_rows_sorted (l : List Record) :
    (sortRecords l).Perm l ∧ (sortRecords l).Pairwise specSortLE ∧
    sortRecords [exB5, exA10, exA20] = [exA20, exA10, exB5] := by
  refine ⟨List.perm_insertionSort recLE l, ?_, by decide⟩
  exact List.Pairwise.imp (fun h => (recLE_iff_specSortLE _ _).mp h)
    (List.sorted_insertionSort recLE l)

/-- C1 witness: the theorem applied to the spec's three-record example. -/
theorem export_rows_sorted_witness :
    sortRecords [exB5, exA10, exA20] = [exA20, exA10, exB5] :=
  (export_rows_sorted [exB5, exA10, exA20]).2.2

/-- C2: for every category page oracle, if pages `1..k-1` are non-empty
and page `k` is absent or extracts to no records (`k` within the cap),
pagination returns exactly the records of pages `1..k-1` and fetches
exactly `k` pages, so no page beyond `k` is ever fetched. -/
theorem paginate_early_termination {α : Type} (g : Nat → Option (List α))
    (k : Nat) (h1 : 1 ≤ k) (h2 : k ≤ MAX_PAGES_PER_CATEGORY)
    (hne : ∀ p, 1 ≤ p → p < k → pageRecs g p ≠ [])
    (he : pageRecs g k = []) :
    fetch_category_listings g =
      ((List.range' 1 (k - 1)).map (pageRecs g)).flatten ∧
    pagesFetched g = k := by
  have hm : (MAX_PAGES_PER_CATEGORY : Nat) = 50 := rfl
  have hne2 : ∀ i, i < k - 1 → pageRecs g (1 + i) ≠ [] := by
    intro i hi
    exact hne (1 + i) (by omega) (by omega)
  have he2 : pageRecs g (1 + (k - 1)) = [] := by
    rwa [show 1 + (k - 1) = k by omega]
  have key := paginateAux_stops_at g (k - 1) MAX_PAGES_PER_CATEGORY 1
    (by omega) hne2 he2
  constructor
  · show (paginateAux g MAX_PAGES_PER_CATEGORY 1).1 = _
    rw [key]
  · show (paginateAux g MAX_PAGES_PER_CATEGORY 1).2 = k
    rw [key]
    omega

/-- C2 witness: a category whose page 1 yields the 10 records
`List.range 10` and whose page 2 yields none returns exactly those 10
records having fetched only 2 pages. -/
theorem paginate_early_termination_witness :
    fetch_category_listings
        (fun p => if p = 1 then some (List.range 10) else some []) =
      List.range 10 ∧
    pagesFetched (fun p => if p = 1 then some (List.range 10) else some []) = 2 := by
  have h := paginate_early_termination
    (fun p => if p = 1 then some (List.range 10) else some []) 2
    (by omega) (by decide)
    (by
      intro p hp1 hp2
      have hp : p = 1 := by omega
      subst hp
      decide)
    (by rfl)
  exact ⟨by rw [h.1]; decide, h.2⟩

/-- C3: when every page from 1 to `MAX_PAGES_PER_CATEGORY` yields at least
one record, pagination fetches exactly `MAX_PAGES_PER_CATEGORY` pages and
returns their concatenated records (total, hence no error is raised). -/
theorem paginate_cap_reached {α : Type} (g : Nat → Option (List α))
    (h : ∀ p, 1 ≤ p → p ≤ MAX_PAGES_PER_CATEGORY → pageRecs g p ≠ []) :
    pagesFetched g = MAX_PAGES_PER_CATEGORY ∧
    fetch_category_listings g =
      ((List.range' 1 MAX_PAGES_PER_CATEGORY).map (pageRecs g)).flatten := by
  have hm : (MAX_PAGES_PER_CATEGORY : Nat) = 50 := rfl
  have h2 : ∀ i, i < MAX_PAGES_PER_CATEGORY → pageRecs g (1 + i) ≠ [] := by
    intro i hi
    exact h (1 + i) (by omega) (by omega)
  have key := paginateAux_all_nonempty g MAX_PAGES_PER_CATEGORY 1 h2
  constructor
  · show (paginateAux g MAX_PAGES_PER_CATEGORY 1).2 = _
    rw [key]
  · show (paginateAux g MAX_PAGES_PER_CATEGORY 1).1 = _
    rw [key]

/-- C3 witness: with every page yielding the single record `0`, exactly
`MAX_PAGES_PER_CATEGORY` pages are fetched. -/
theorem paginate_cap_reached_witness :
    pagesFetched (fun _ => some [(0 : Nat)]) = MAX_PAGES_PER_CATEGORY :=
  (paginate_cap_reached (fun _ => some [(0 : Nat)])
    (by intro p hp1 hp2; simp [pageRecs])).1

/-- C6: a listing block without the preview anchor is skipped entirely
(zero records) while all other blocks of the same page are still
extracted, in order. -/
theorem missing_anchor_skips_block (catName : String) (pre post : List Block)
    (b : Block) (h : b.preview = none) :
    extractRecord catName b = none ∧
    extractListings catName (pre ++ b :: post) =
      extractListings catName pre ++ extractListings catName post := by
  have hb : extractRecord catName b = none := by simp [extractRecord, h]
  refine ⟨hb, ?_⟩
  simp [extractListings, List.filterMap_append, List.filterMap_cons, hb]

/-- C6 witness: on a page holding one complete block and one block without
an anchor, only the complete block's record is emitted. -/
theorem missing_anchor_skips_block_witness :
    extractRecord "Guns" ⟨none, none, none⟩ = none ∧
    extractListings "Guns"
        ([⟨some ⟨"u", some "T", "T2"⟩, none, none⟩] ++ ⟨none, none, none⟩ :: []) =
      extractListings "Guns" [⟨some ⟨"u", some "T", "T2"⟩, none, none⟩] ++
        extractListings "Guns" [] :=
  missing_anchor_skips_block "Guns" _ _ _ rfl

/-- C9: the run writes no output file exactly when the aggregate
collection is empty, in which case it exits normally with the message
`No data scraped. Exiting.`; otherwise it writes exactly one file, the
sorted rows on the single `Listings` sheet. -/
theorem empty_aggregate_no_file (l : List Record) :
    ((mainExport l).2 = none ↔ l = []) ∧
    (l = [] → (mainExport l).1 = some "No data scraped. Exiting.") ∧
    (l ≠ [] → (mainExport l).2 =
      some ("all_categories_listings.xlsx", "Listings", sortRecords l)) := by
  by_cases h : l = [] <;> simp [mainExport, h]

/-- C9 witness: the empty aggregate produces the message and no file; a
one-record aggregate produces the file. -/
theorem empty_aggregate_no_file_witness :
    (mainExport []).1 = some "No data scraped. Exiting." ∧
    (mainExport [⟨"A", "t", "u", none, none⟩]).2 =
      some ("all_categories_listings.xlsx", "Listings",
        sortRecords [⟨"A", "t", "u", none, none⟩]) :=
  ⟨(empty_aggregate_no_file []).2.1 rfl,
    (empty_aggregate_no_file [⟨"A", "t", "u", none, none⟩]).2.2 (by simp)⟩

/-- C4: the price parser takes the first run of digits, commas and dots of
the price text, strips commas and parses the float: every price text of
the shape `$1,234.50 (…)` yields exactly `1234.50`; a text containing no
price character yields an absent price, as does a missing price element —
in every case without raising (the parser is total). -/
theorem price_parsing :
    (∀ rest : List Char,
      extractPrice (some (String.mk ("$1,234.50 (".data ++ rest))) =
        some (1234.5 : ℚ)) ∧
    (∀ t : String, (∀ c ∈ t.data, isPriceChar c = false) →
      extractPrice (some t) = none) ∧
    extractPrice none = none := by
  refine ⟨?_, ?_, rfl⟩
  · intro rest
    have h : extractPrice (some (String.mk ("$1,234.50 (".data ++ rest))) =
        some ((1234 : ℚ) + 50 / 10 ^ 2) := rfl
    rw [h]
    norm_num
  · intro t ht
    show (match firstRun isPriceChar t.data with
      | none => none
      | some run => pyFloat? (run.filter (fun c => c != ','))) = none
    rw [firstRun_none t.data ht]

/-- C4 witness: the concrete price texts `$1,234.50 (obo)` and
`Call for price`. -/
theorem price_parsing_witness :
    extractPrice (some "$1,234.50 (obo)") = some (1234.5 : ℚ) ∧
    extractPrice (some "Call for price") = none :=
  ⟨price_parsing.1 "obo)".data,
    price_parsing.2.1 "Call for price" (by decide)⟩

/-- C5: the views parser matches the stats text against the anchored
pattern `([\d,]+)\s+total views`, strips commas and parses the integer:
the text `2,048 total views` yields `2048`; a text the pattern does not
match yields absent views, as does a missing stats element — in every
case without raising (the parser is total). -/
theorem views_parsing :
    extractViews (some "2,048 total views") = some 2048 ∧
    (∀ t : String, viewsGroup? t.data = none → extractViews (some t) = none) ∧
    extractViews none = none := by
  refine ⟨by decide, ?_, rfl⟩
  intro t ht
  show (match viewsGroup? t.data with
    | none => none
    | some g => pyInt? (g.filter (fun c => c != ','))) = none
  rw [ht]

/-- C5 witness: a stats text the pattern does not match yields absent
views. -/
theorem views_parsing_witness : extractViews (some "no stats here") = none :=
  views_parsing.2.1 "no stats here" (by decide)

/-- C10: the views match is anchored only at the start of the stats text:
`extractViews` yields a value exactly on the texts that begin with a run
of digits and commas (containing a digit) followed by whitespace and the
literal `total views`, with arbitrary extra text allowed to follow, and
the value is the integer parsed from that run with commas stripped.
Consequently every stats text with any prefix before the digits — such as
`Seen 2,048 total views` or `12x 2,048 total views` — admits no such
decomposition, so its views are absent. -/
theorem views_match_anchored (t : String) (n : Nat) :
    extractViews (some t) = some n ↔ viewsPattern t.data n := by
  rw [extractViews_some]
  constructor
  · intro h
    cases hg : viewsGroup? t.data with
    | none =>
      rw [hg] at h
      exact absurd (show (none : Option Nat) = some n from h) (by simp)
    | some g =>
      rw [hg] at h
      have h2 : pyInt? (g.filter (fun c => c != ',')) = some n := h
      rw [viewsGroup_eq] at hg
      by_cases hE : (t.data.takeWhile isDigitComma).isEmpty = true
      · rw [if_pos hE] at hg
        exact absurd hg (by simp)
      · rw [if_neg hE] at hg
        by_cases hW :
            ((t.data.dropWhile isDigitComma).takeWhile isPySpace).isEmpty = true
        · rw [if_pos hW] at hg
          exact absurd hg (by simp)
        · rw [if_neg hW] at hg
          by_cases hL : litMatch "total views".data
              ((t.data.dropWhile isDigitComma).dropWhile isPySpace) = true
          · rw [if_pos hL] at hg
            obtain rfl : t.data.takeWhile isDigitComma = g := Option.some.inj hg
            by_cases hI :
                ((t.data.takeWhile isDigitComma).filter
                  (fun c => c != ',')).isEmpty = true
            · rw [pyInt_eq, if_pos hI] at h2
              exact absurd h2 (by simp)
            · by_cases hA : ((t.data.takeWhile isDigitComma).filter
                  (fun c => c != ',')).all Char.isDigit = true
              · rw [pyInt_eq, if_neg hI, if_pos hA] at h2
                obtain ⟨rest, hrest⟩ := litMatch_exists hL
                refine ⟨t.data.takeWhile isDigitComma,
                  (t.data.dropWhile isDigitComma).takeWhile isPySpace, rest,
                  ?_, ?_, ?_, ?_, ?_, ?_, ?_⟩
                · rw [List.append_assoc, ← hrest,
                    List.takeWhile_append_dropWhile,
                    List.takeWhile_append_dropWhile]
                · intro h0
                  exact hE (by rw [h0]; rfl)
                · exact fun c hc => List.mem_takeWhile_imp hc
                · intro h0
                  exact hW (by rw [h0]; rfl)
                · exact fun c hc => List.mem_takeWhile_imp hc
                · intro h0
                  exact hI (by rw [h0]; rfl)
                · exact (Option.some.inj h2).symm
              · rw [pyInt_eq, if_neg hI, if_neg hA] at h2
                exact absurd h2 (by simp)
          · rw [if_neg hL] at hg
            exact absurd hg (by simp)
  · rintro ⟨ds, ws, rest, ht, hds, hdsall, hws, hwsall, hfilter, rfl⟩
    obtain ⟨d, ds2, rfl⟩ := List.exists_cons_of_ne_nil hds
    obtain ⟨w, ws2, rfl⟩ := List.exists_cons_of_ne_nil hws
    have hw0 : isPySpace w = true := hwsall w (List.mem_cons_self w ws2)
    have hshape : (d :: ds2) ++ (w :: ws2) ++ ("total views".data ++ rest) =
        (d :: ds2) ++ w :: (ws2 ++ ("total views".data ++ rest)) := by
      simp [List.append_assoc]
    have hg : viewsGroup? t.data = some (d :: ds2) := by
      rw [ht, hshape]
      simp only [viewsGroup?]
      rw [takeWhile_append_stop (d :: ds2) w (ws2 ++ ("total views".data ++ rest))
          hdsall (isPySpace_not_digitComma hw0),
        dropWhile_append_stop (d :: ds2) w (ws2 ++ ("total views".data ++ rest))
          hdsall (isPySpace_not_digitComma hw0)]
      have hw2 : (w :: (ws2 ++ ("total views".data ++ rest))) =
          (w :: ws2) ++ ('t' :: ("otal views".data ++ rest)) := rfl
      rw [hw2,
        takeWhile_append_stop (w :: ws2) 't' ("otal views".data ++ rest)
          hwsall (by rfl),
        dropWhile_append_stop (w :: ws2) 't' ("otal views".data ++ rest)
          hwsall (by rfl)]
      simp only [List.isEmpty_cons, Bool.false_eq_true, if_false]
      rw [if_pos (show litMatch "total views".data
          ('t' :: ("otal views".data ++ rest)) = true
        from litMatch_self_append "total views".data rest)]
    rw [hg]
    show pyInt? ((d :: ds2).filter (fun c => c != ',')) =
      some (digitsVal ((d :: ds2).filter (fun c => c != ',')))
    have hI : ¬(((d :: ds2).filter (fun c => c != ',')).isEmpty = true) := by
      intro h0
      rw [List.isEmpty_iff] at h0
      exact hfilter h0
    have hA : ((d :: ds2).filter (fun c => c != ',')).all Char.isDigit = true := by
      rw [List.all_eq_true]
      intro c hc
      rw [List.mem_filter] at hc
      have h1 := hdsall c hc.1
      have h2 : ¬(c = ',') := by simpa using hc.2
      simp only [isDigitComma, Bool.or_eq_true, beq_iff_eq] at h1
      rcases h1 with h1 | h1
      · exact h1
      · exact absurd h1 h2
    simp only [pyInt?]
    rw [if_neg hI, if_pos hA]

/-- C10 witness: the characterization applied at `2,048 total views!!`
(trailing text accepted, views 2048), alongside the absent results on the
prefixed texts `Seen 2,048 total views` and `12x 2,048 total views`. -/
theorem views_match_anchored_witness :
    extractViews (some "2,048 total views!!") = some 2048 ∧
    extractViews (some "Seen 2,048 total views") = none ∧
    extractViews (some "12x 2,048 total views") = none := by
  refine ⟨?_, by decide, by decide⟩
  exact (views_match_anchored "2,048 total views!!" 2048).mpr
    ⟨"2,048".data, [' '], "!!".data, by decide, by decide, by decide,
      by decide, by decide, by decide, by decide⟩

/-- C7 counterexample: the categories-index fetch performed by
`get_category_links` calls `raise_for_status` with no 404 pre-check, so a
404 status on that page fetch raises an `HttpError` instead of yielding an
absent result — refuting the claim for that fetch site. -/
theorem categories_fetch_404_raises :
    get_category_links_fetch 404 "<html></html>" = Except.error 404 ∧
    ∀ body : String, Except.error 404 ≠ Except.ok body := by
  refine ⟨rfl, ?_⟩
  intro body h
  exact Except.noConfusion h

/-- C7 (amended): listing-page fetches yield the absent (empty) result on
a 404 status and raise an `HttpError` on any other 4xx/5xx status, while
the categories-index fetch raises an `HttpError` on every 4xx/5xx status,
404 included. -/
theorem fetch_status_handling :
    (∀ (catName : String) (blocks : List Block),
      fetch_listings_from_page catName 404 blocks = Except.ok []) ∧
    (∀ (catName : String) (status : Nat) (blocks : List Block),
      status ≠ 404 → raiseForStatus status = true →
      fetch_listings_from_page catName status blocks = Except.error status) ∧
    (∀ (status : Nat) (body : String), raiseForStatus status = true →
      get_category_links_fetch status body = Except.error status) := by
  refine ⟨fun c b => rfl, ?_, ?_⟩
  · intro c s b h1 h2
    simp [fetch_listings_from_page, h1, h2]
  · intro s body h
    simp [get_category_links_fetch, h]

/-- C7 witness: statuses 404 and 500 at both fetch sites. -/
theorem fetch_status_handling_witness :
    fetch_listings_from_page "Guns" 404 [] = Except.ok [] ∧
    fetch_listings_from_page "Guns" 500 [] = Except.error 500 ∧
    get_category_links_fetch 500 "<html></html>" = Except.error 500 :=
  ⟨fetch_status_handling.1 "Guns" [],
    fetch_status_handling.2.1 "Guns" 500 [] (by decide) (by decide),
    fetch_status_handling.2.2 500 "<html></html>" (by decide)⟩

/-- C8 counterexample: a preview anchor whose `title` attribute is present
but empty: Python's `or` falls through the falsy empty string, so the
record's title is the anchor text `Rifle`, not the present attribute value
`""` — refuting the claim as stated. -/
theorem empty_title_attr_counterexample :
    emptyTitleBlock.preview.map Anchor.titleAttr = some (some "") ∧
    (extractRecord "Guns" emptyTitleBlock).map Record.title = some "Rifle" ∧
    some "Rifle" ≠ (some "" : Option String) := by
  refine ⟨rfl, rfl, ?_⟩
  simp

/-- C8 (amended): the record's title equals the anchor's `title` attribute
whenever that attribute is present and non-empty, and equals the anchor's
trimmed visible text otherwise (attribute absent or empty). -/
theorem title_from_attr_or_text (catName : String) (b : Block) (a : Anchor)
    (h : b.preview = some a) :
    (∀ t : String, a.titleAttr = some t → t ≠ "" →
      (extractRecord catName b).map Record.title = some t) ∧
    ((a.titleAttr = none ∨ a.titleAttr = some "") →
      (extractRecord catName b).map Record.title = some a.textStripped) := by
  constructor
  · intro t ht hne
    simp [extractRecord, h, anchorTitle, ht, hne]
  · rintro (ht | ht) <;> simp [extractRecord, h, anchorTitle, ht]

/-- C8 witness: a non-empty `title` attribute is used verbatim; an absent
attribute falls back to the anchor text. -/
theorem title_from_attr_or_text_witness :
    (extractRecord "Guns" ⟨some ⟨"u", some "Nice Gun", "txt"⟩, none, none⟩).map
      Record.title = some "Nice Gun" ∧
    (extractRecord "Guns" ⟨some ⟨"u", none, "txt"⟩, none, none⟩).map
      Record.title = some "txt" :=
  ⟨(title_from_attr_or_text "Guns" ⟨some ⟨"u", some "Nice Gun", "txt"⟩, none, none⟩
      ⟨"u", some "Nice Gun", "txt"⟩ rfl).1 "Nice Gun" rfl (by simp),
    (title_from_attr_or_text "Guns" ⟨some ⟨"u", none, "txt"⟩, none, none⟩
      ⟨"u", none, "txt"⟩ rfl).2 (Or.inl rfl)⟩

end Scrapper
